import Mathlib

/-!
Verification development for the excel-analytics-dashboard repository.

The repository's core is the spreadsheet-to-metrics extraction in its server
(`toNumber`, `safeDivide`, `sumFinite`/`countFinite`/`avgFinite`,
`parseOverviewStyle`, `computeKPIsFromSeries`, the `/api/upload` handler)
together with the frontend's `computeCostPerMessageSeries`.  The repository
contains two near-duplicate server variants; this development embeds the later
("fixed") variant, the one the specification follows (spec §9).

Embedding conventions:
* JavaScript numbers are modelled by `JsNum`: an exact rational for a finite
  value, plus `nan`, `inf`, `negInf`.  Arithmetic on finite values is exact
  rational arithmetic (double rounding/overflow is not modelled; no claim in
  scope depends on rounding).
* Grid rows are dense lists of `Cell`s; an absent / empty spreadsheet cell is
  the explicit `Cell.empty` (observably equivalent to the sparse-array holes
  the xlsx boundary can produce, for every operation modelled here).
* `null`/missing numeric values are `Option.none`.
-/

namespace ExcelDash

/-- A JavaScript number: a finite value (exact rational) or one of the three
non-finite values. -/
inductive JsNum where
  | fin (q : ℚ)
  | nan
  | inf
  | negInf
deriving DecidableEq, Repr

/-- The character class of the JavaScript regexp `\s` (and of `String.prototype.trim`):
ASCII whitespace, NBSP, the Unicode space separators, line/paragraph separators
and the BOM. -/
def jsIsWhitespace (c : Char) : Bool :=
  c == ' ' || c == '\t' || c == '\n' || c == '\r' ||
  c.toNat == 0x0b || c.toNat == 0x0c ||
  c.toNat == 0xa0 || c.toNat == 0x1680 ||
  (0x2000 ≤ c.toNat && c.toNat ≤ 0x200a) ||
  c.toNat == 0x2028 || c.toNat == 0x2029 || c.toNat == 0x202f ||
  c.toNat == 0x205f || c.toNat == 0x3000 || c.toNat == 0xfeff

/-- Drop leading and trailing JS whitespace from a character list. -/
def jsTrimList (l : List Char) : List Char :=
  ((l.dropWhile jsIsWhitespace).reverse.dropWhile jsIsWhitespace).reverse

/-- `String.prototype.trim`. -/
def jsTrim (s : String) : String :=
  String.mk (jsTrimList s.toList)

/-- `String.prototype.toLowerCase`, restricted to the ASCII case mapping
(all names occurring in this code base are ASCII). -/
def jsToLower (s : String) : String :=
  String.mk (s.toList.map Char.toLower)

/-- Auxiliary for `jsIncludes`: does `hay` contain `needle` as a contiguous
sub-list? -/
def includesList (needle : List Char) : List Char → Bool
  | [] => needle.isEmpty
  | c :: t => needle.isPrefixOf (c :: t) || includesList needle t

/-- `hay.includes(needle)` from JavaScript. -/
def jsIncludes (hay needle : String) : Bool :=
  includesList needle.toList hay.toList

/-- Numeric value of a list of decimal digit characters. -/
def digitsVal (l : List Char) : Nat :=
  l.foldl (fun a c => 10 * a + (c.toNat - '0'.toNat)) 0

/-- Value of one hexadecimal digit character, if it is one. -/
def hexDigitVal (c : Char) : Option Nat :=
  if c.isDigit then some (c.toNat - '0'.toNat)
  else if 'a' ≤ c ∧ c ≤ 'f' then some (c.toNat - 'a'.toNat + 10)
  else if 'A' ≤ c ∧ c ≤ 'F' then some (c.toNat - 'A'.toNat + 10)
  else none

/-- ECMAScript non-decimal integer literal (`0x…`, `0o…`, `0b…`) after the
radix marker: all characters must be digits of the given base. -/
def parseRadix (b : Nat) (l : List Char) : JsNum :=
  if l.isEmpty then .nan
  else if l.all (fun c => match hexDigitVal c with | some v => v < b | none => false) then
    .fin ((l.foldl (fun a c => b * a + ((hexDigitVal c).getD 0)) 0 : Nat) : ℚ)
  else .nan

/-- ECMAScript `StrUnsignedDecimalLiteral` other than `Infinity`:
`digits [. digits] [e sign digits]`, `.digits [exponent]`, etc.; the whole
input must be consumed and at least one mantissa digit must be present. -/
def parseDec (l : List Char) : Option ℚ :=
  let ip := l.takeWhile Char.isDigit
  let r1 := l.dropWhile Char.isDigit
  let fpr2 : List Char × List Char :=
    match r1 with
    | '.' :: t => (t.takeWhile Char.isDigit, t.dropWhile Char.isDigit)
    | _ => ([], r1)
  let fp := fpr2.1
  let r2 := fpr2.2
  if ip.isEmpty && fp.isEmpty then none
  else
    let mant : ℚ := (digitsVal ip : ℚ) + (digitsVal fp : ℚ) / (10 : ℚ) ^ fp.length
    match r2 with
    | [] => some mant
    | e :: t =>
      if e == 'e' || e == 'E' then
        let st : Int × List Char :=
          match t with
          | '+' :: u => (1, u)
          | '-' :: u => (-1, u)
          | _ => (1, t)
        let ed := st.2.takeWhile Char.isDigit
        if ed.isEmpty || !(st.2.dropWhile Char.isDigit).isEmpty then none
        else some (mant * (10 : ℚ) ^ (st.1 * (digitsVal ed : Int)))
      else none

/-- Signed decimal part of the ECMAScript string numeric grammar: an optional
sign followed by `Infinity` or an unsigned decimal literal. -/
def parseUnsignedDec (sign : Int) (l : List Char) : JsNum :=
  if l = "Infinity".toList then (if sign = 1 then .inf else .negInf)
  else
    match parseDec l with
    | some q => .fin ((sign : ℚ) * q)
    | none => .nan

/-- Strip an optional leading sign, then parse the unsigned decimal part. -/
def parseSignedDec (l : List Char) : JsNum :=
  match l with
  | '+' :: rest => parseUnsignedDec 1 rest
  | '-' :: rest => parseUnsignedDec (-1) rest
  | _ => parseUnsignedDec 1 l

/-- ECMAScript `ToNumber` applied to a string (`Number(s)` in the source):
trim, empty means `0`, a radix-prefixed integer, or a signed decimal literal
(possibly `Infinity`); anything else is `NaN`. -/
def jsStringToNumber (s : String) : JsNum :=
  let l := jsTrimList s.toList
  match l with
  | [] => .fin 0
  | '0' :: c :: rest =>
    if c == 'x' || c == 'X' then parseRadix 16 rest
    else if c == 'o' || c == 'O' then parseRadix 8 rest
    else if c == 'b' || c == 'B' then parseRadix 2 rest
    else parseSignedDec l
  | _ => parseSignedDec l

/-- A raw spreadsheet cell as the xlsx boundary hands it to the core:
empty (null/undefined), a string, a JS number, a `Date`, or a boolean. -/
inductive Cell where
  | empty
  | str (s : String)
  | num (j : JsNum)
  | date (t : Int)
  | bool (b : Bool)
deriving DecidableEq, Repr

/-- `String(b)` for a boolean. -/
def boolToString (b : Bool) : String :=
  if b then "true" else "false"

/-- `String(d)` for a `Date`.  A JS date renders as
"Www Mmm dd yyyy HH:MM:SS GMT+ZZZZ (zone)".  Only the structural fact that
this text begins with an alphabetic weekday name (hence never parses as a
number) is relevant anywhere in this development, so the calendar rendering of
the timestamp is abstracted to the epoch's. -/
def dateToString (_t : Int) : String :=
  "Thu Jan 01 1970 00:00:00 GMT+0000 (Coordinated Universal Time)"

/-- `String(n)` for a JS number.  Exact for the non-finite values and for
integral finite values (the only finite case exercised in this development);
a non-integral finite value is abstracted to its reduced-fraction rendering. -/
def jsNumToString : JsNum → String
  | .nan => "NaN"
  | .inf => "Infinity"
  | .negInf => "-Infinity"
  | .fin q => if q.den = 1 then toString q.num else toString q.num ++ "/" ++ toString q.den

/-- `String(v)` on a cell value.  (`String(v)` is only ever applied in the
source with `v ?? ""` or after a null/undefined guard; the `empty` case maps
to the `""` of `v ?? ""`.) -/
def cellToString : Cell → String
  | .empty => ""
  | .str s => s
  | .num j => jsNumToString j
  | .date t => dateToString t
  | .bool b => boolToString b

/-- The strip step of the source's `toNumber`:
`String(v).replace(/[₱,$\s]/g, "").replace(/,/g, "")` — remove peso sign,
dollar sign, commas and JS whitespace. -/
def stripSymbols (s : String) : String :=
  String.mk (s.toList.filter (fun c => !(c == '₱' || c == '$' || c == ',' || jsIsWhitespace c)))

/-- The generic branch of the source's `toNumber`, already given `String(v)`:
strip currency symbols/commas/whitespace, trim; an empty remainder is null;
otherwise `Number(cleaned)` kept only if finite. -/
def numParse (s : String) : Option JsNum :=
  if jsTrim (stripSymbols s) = "" then none
  else
    match jsStringToNumber (jsTrim (stripSymbols s)) with
    | .fin q => some (.fin q)
    | _ => none

/-- The source's (fixed) `toNumber`, value-faithful over `JsNum`:
null/undefined is null; a string that trims to empty, `-` or `—` is null;
a number is itself if finite else null; anything else goes through
`String(v)` and the strip-and-parse branch. -/
def toNumberJs : Cell → Option JsNum
  | .empty => none
  | .str s =>
    if jsTrim s = "" ∨ jsTrim s = "-" ∨ jsTrim s = "—" then none
    else numParse s
  | .num (.fin q) => some (.fin q)
  | .num _ => none
  | .date t => numParse (dateToString t)
  | .bool b => numParse (boolToString b)

/-- `toNumber` at the type actually carried by every series value:
by `toNumberJs`'s range (a finite number or null, proved below as C10) the
projection to `Option ℚ` loses nothing. -/
def toNumber (c : Cell) : Option ℚ :=
  match toNumberJs c with
  | some (.fin q) => some q
  | _ => none

/-! ## parseOverviewStyle -/

/-- The date-likeness test of the header-row locator: a `Date` value; a number
strictly inside the Excel-serial plausibility window `(20000, 60000)`; or a
string containing a word-bounded 4-digit token starting `19` or `20`. -/
def isWordChar (c : Char) : Bool :=
  c.isAlphanum || c == '_'

/-- Does `19` or `20` start a 4-digit year token here? -/
def yearStart (c1 c2 : Char) : Bool :=
  (c1 == '1' && c2 == '9') || (c1 == '2' && c2 == '0')

/-- A word-bounded 4-digit year token begins at the head of the list, given
the character just before it (`none` at the start of the string). -/
def yearTokenHere (prev : Option Char) : List Char → Bool
  | c1 :: c2 :: c3 :: c4 :: rest =>
    yearStart c1 c2 && c3.isDigit && c4.isDigit &&
    (match prev with | none => true | some p => !isWordChar p) &&
    (match rest with | [] => true | c :: _ => !isWordChar c)
  | _ => false

/-- Scan all positions of the list for a year token. -/
def hasYearTokenAux (prev : Option Char) : List Char → Bool
  | [] => false
  | c :: rest => yearTokenHere prev (c :: rest) || hasYearTokenAux (some c) rest

/-- The JS regexp test `/\b(20\d{2}|19\d{2})\b/.test(s)`. -/
def hasYearToken (s : String) : Bool :=
  hasYearTokenAux none s.toList

/-- The per-cell date-likeness predicate of `parseOverviewStyle`'s header scan. -/
def dateLike : Cell → Bool
  | .date _ => true
  | .num (.fin q) => decide ((20000 : ℚ) < q) && decide (q < (60000 : ℚ))
  | .num _ => false
  | .str s => hasYearToken s
  | _ => false

/-- `row.slice(1).filter(dateLike).length` of the header scan. -/
def rowDateLikeCount (row : List Cell) : Nat :=
  ((row.drop 1).filter dateLike).length

/-- First index `r` in `[start, start + fuel)` with `p r`; the shape of the
source's `for`-loop with early `break`. -/
def findFirstIdx (p : Nat → Bool) : Nat → Nat → Option Nat
  | _, 0 => none
  | start, fuel + 1 => if p start then some start else findFirstIdx p (start + 1) fuel

/-- The header-row locator: scan rows `0 .. min(rowCount, 60) - 1` for the
first row with at least 3 date-like cells at column index ≥ 1. -/
def locateHeader (aoa : List (List Cell)) : Option Nat :=
  findFirstIdx (fun r => 3 ≤ rowDateLikeCount (aoa.getD r [])) 0 (min aoa.length 60)

/-- Rendering of a `Date` header cell as a chart label
(`toLocaleString("en-US", {month: "short", year: "2-digit"})`).  No claim in
scope depends on label text (only on label count), so the calendar rendering
is abstracted to the epoch's. -/
def dateLabel (_t : Int) : String :=
  "Jan 70"

/-- Modelled from the spec: the external `XLSX.SSF.parse_date_code` call plus
date formatting used for numeric header cells.  The library accepts
non-negative serials below the year-10000 bound; the rendering itself is
abstracted as in `dateLabel`. -/
def ssfLabel (q : ℚ) : Option String :=
  if 0 ≤ q ∧ q < 2958466 then some (dateLabel 0) else none

/-- `String(cell ?? "")`: like `cellToString`, with null/undefined coalesced
to the empty string. -/
def cellNameString : Cell → String
  | .empty => ""
  | c => cellToString c

/-- The generic label branch: `String(cell ?? "").trim() || "—"`. -/
def fallbackLabel (c : Cell) : String :=
  if jsTrim (cellNameString c) = "" then "—" else jsTrim (cellNameString c)

/-- Label rendering of one header cell. -/
def labelOfCell : Cell → String
  | .date t => dateLabel t
  | .num (.fin q) => (ssfLabel q).getD (fallbackLabel (.num (.fin q)))
  | c => fallbackLabel c

/-- The series map: insertion-ordered association list from metric name to
value row, with JS-object overwrite-in-place semantics. -/
abbrev Series := List (String × List (Option ℚ))

/-- `series[name] = values` on a JS object: overwrite in place if the key
exists, else append. -/
def seriesInsert (s : Series) (k : String) (v : List (Option ℚ)) : Series :=
  if s.any (fun p => p.1 == k) then
    s.map (fun p => if p.1 == k then (k, v) else p)
  else s ++ [(k, v)]

/-- One iteration of the series-extraction loop: read the trimmed metric name
from column 0, skip anonymous rows, map `toNumber` over the tail, and keep
the row only if some value is finite (equivalently non-null, by C10). -/
def extractRow (ser : Series) (row : List Cell) : Series :=
  if jsTrim (cellNameString (row.getD 0 .empty)) = "" then ser
  else if ((row.drop 1).map toNumber).any Option.isSome then
    seriesInsert ser (jsTrim (cellNameString (row.getD 0 .empty))) ((row.drop 1).map toNumber)
  else ser

/-- The series-extraction loop over all rows strictly below the header. -/
def extractSeries (rows : List (List Cell)) : Series :=
  rows.foldl extractRow []

/-- Successful extraction result: labels plus series. -/
structure Parsed where
  labels : List String
  series : Series
deriving DecidableEq, Repr

/-- The source's `parseOverviewStyle`: locate the header row (null if none),
render the header tail as labels, and extract one series per named metric row
below the header. -/
def parseOverviewStyle (aoa : List (List Cell)) : Option Parsed :=
  match locateHeader aoa with
  | none => none
  | some h =>
    some { labels := ((aoa.getD h []).drop 1).map labelOfCell
           series := extractSeries (aoa.drop (h + 1)) }

/-! ## computeKPIsFromSeries -/

/-- `safeDivide(a, b)`: null unless both operands are finite (non-null) and
the denominator is nonzero.  (Series totals are null or finite, so
`Number.isFinite` on them is exactly `isSome` here.) -/
def safeDivide : Option ℚ → Option ℚ → Option ℚ
  | some a, some b => if b = 0 then none else some (a / b)
  | _, _ => none

/-- `sumFinite(arr)`: sum of the finite (non-null) entries, left fold from 0. -/
def sumFinite (l : List (Option ℚ)) : ℚ :=
  (l.filterMap id).foldl (· + ·) 0

/-- `countFinite(arr)`: number of finite (non-null) entries. -/
def countFinite (l : List (Option ℚ)) : Nat :=
  (l.filterMap id).length

/-- `avgFinite(arr)`: mean of the finite *strictly positive* entries
(zeros deliberately ignored), null when there are none. -/
def avgFinite (l : List (Option ℚ)) : Option ℚ :=
  if ((l.filterMap id).filter (fun n => decide (0 < n))).isEmpty then none
  else some (((l.filterMap id).filter (fun n => decide (0 < n))).foldl (· + ·) 0 /
    (((l.filterMap id).filter (fun n => decide (0 < n))).length : ℚ))

/-- JS truthiness of a `string | undefined` value (the empty string is falsy). -/
def strTruthy : Option String → Bool
  | none => false
  | some s => !(s == "")

/-- JS `a || b` on `string | undefined` values. -/
def jsOrStr (a b : Option String) : Option String :=
  if strTruthy a then a else b

/-- `Object.keys(series).find(k => k.toLowerCase() === target)`. -/
def exactFind (series : Series) (target : String) : Option String :=
  (series.find? (fun p => jsToLower p.1 == target)).map Prod.fst

/-- `Object.keys(series).find(k => k.toLowerCase().includes(target))`. -/
def subFind (series : Series) (target : String) : Option String :=
  (series.find? (fun p => jsIncludes (jsToLower p.1) target)).map Prod.fst

/-- The source's `findKey`: exact case-insensitive match over the keys,
`||`-chained with a case-insensitive substring match. -/
def findKey (series : Series) (name : String) : Option String :=
  jsOrStr (exactFind series (jsToLower name)) (subFind series (jsToLower name))

/-- `findKey(a1) || findKey(a2) || … `: try each alias in order with JS `||`
semantics (the last operand is returned verbatim). -/
def findKeyChain (series : Series) : List String → Option String
  | [] => none
  | [a] => findKey series a
  | a :: b :: rest => jsOrStr (findKey series a) (findKeyChain series (b :: rest))

/-- Alias chain for the spend metric. -/
def spentAliases : List String := ["Total Ad Spent", "Amount spent", "Ad Spent"]

/-- Alias chain for the messages metric. -/
def msgsAliases : List String := ["No. of Messages", "Messages"]

/-- Alias chain for the revenue metric. -/
def revenueAliases : List String := ["Total Revenue", "Revenue"]

/-- Alias chain for the customers metric. -/
def customersAliases : List String := ["No. of Customers", "Customers"]

/-- `keySpent` of `computeKPIsFromSeries`. -/
def keySpentOf (series : Series) : Option String := findKeyChain series spentAliases

/-- `keyMsgs` of `computeKPIsFromSeries`. -/
def keyMsgsOf (series : Series) : Option String := findKeyChain series msgsAliases

/-- `keyRevenue` of `computeKPIsFromSeries`. -/
def keyRevenueOf (series : Series) : Option String := findKeyChain series revenueAliases

/-- `keyCustomers` of `computeKPIsFromSeries`. -/
def keyCustomersOf (series : Series) : Option String := findKeyChain series customersAliases

/-- `keyCAC` of `computeKPIsFromSeries`: a single `findKey("CAC")`. -/
def keyCACOf (series : Series) : Option String := findKey series "CAC"

/-- `key ? series[key] : []`: resolve a key to its value row, `[]` when the
key is absent (or falsy). -/
def arrOf (series : Series) (key : Option String) : List (Option ℚ) :=
  if strTruthy key then ((series.find? (fun p => p.1 == key.getD "")).map Prod.snd).getD []
  else []

/-- `key ? sumFinite(arr) : null`: a metric's total. -/
def totalOf (series : Series) (key : Option String) : Option ℚ :=
  if strTruthy key then some (sumFinite (arrOf series key)) else none

/-- `Math.max(countFinite(arr), 1)`: a metric's per-metric month denominator. -/
def monthsOf (series : Series) (key : Option String) : Nat :=
  max (countFinite (arrOf series key)) 1

/-- `total !== null ? total / months : null`: a metric's per-month average. -/
def avgOf (series : Series) (key : Option String) : Option ℚ :=
  (totalOf series key).map (fun t => t / (monthsOf series key : ℚ))

/-- The CAC preference ladder:
`Number.isFinite(avgFinite(cacArr)) ? avgFinite(cacArr) : safeDivide(spent, customers)`. -/
def cacOf (series : Series) : Option ℚ :=
  match avgFinite (arrOf series (keyCACOf series)) with
  | some q => some q
  | none => safeDivide (totalOf series (keySpentOf series)) (totalOf series (keyCustomersOf series))

/-- The `totals` / `averagesPerMonth` record shape. -/
structure Totals where
  spent : Option ℚ
  messages : Option ℚ
  revenue : Option ℚ
  customers : Option ℚ
deriving DecidableEq, Repr

/-- The scalar KPI record shape. -/
structure KpiSub where
  costPerMessage : Option ℚ
  roas : Option ℚ
  cac : Option ℚ
deriving DecidableEq, Repr

/-- The full result of `computeKPIsFromSeries`. -/
structure KpiResult where
  totals : Totals
  averagesPerMonth : Totals
  kpis : KpiSub
deriving DecidableEq, Repr

/-- The source's (fixed) `computeKPIsFromSeries`.  The `labels` parameter is
unused by the source as well.  Each `let`-binding of the source is one of the
helper definitions above, applied to the same resolved key. -/
def computeKPIsFromSeries (_labels : List String) (series : Series) : KpiResult :=
  { totals :=
      { spent := totalOf series (keySpentOf series)
        messages := totalOf series (keyMsgsOf series)
        revenue := totalOf series (keyRevenueOf series)
        customers := totalOf series (keyCustomersOf series) }
    averagesPerMonth :=
      { spent := avgOf series (keySpentOf series)
        messages := avgOf series (keyMsgsOf series)
        revenue := avgOf series (keyRevenueOf series)
        customers := avgOf series (keyCustomersOf series) }
    kpis :=
      { costPerMessage := safeDivide (totalOf series (keySpentOf series)) (totalOf series (keyMsgsOf series))
        roas := safeDivide (totalOf series (keyRevenueOf series)) (totalOf series (keySpentOf series))
        cac := cacOf series } }

/-! ## The /api/upload handler (post-read logic on the in-memory grid) -/

/-- `tablePreview = { sheetName, rows: aoa.slice(0, 50) }`. -/
structure TablePreview where
  sheetName : String
  rows : List (List Cell)
deriving DecidableEq, Repr

/-- The two outcomes the handler can send for an in-memory grid: the
422 format-not-recognized payload, or the success payload. -/
inductive UploadResult where
  | formatNotRecognized (error : String) (tablePreview : TablePreview)
  | success (mode : String) (sheetName : String) (labels : List String)
      (series : Series) (kpis : KpiResult) (tablePreview : TablePreview)
deriving DecidableEq, Repr

/-- The handler's user-facing error message. -/
def formatErrorMsg : String :=
  "Could not detect Overview-style format. Please use the provided sample format."

/-- The `/api/upload` handler from the point where the grid is in memory:
build the 50-row preview, run `parseOverviewStyle`, and answer 422-with-preview
on failure or the overview-style payload on success.  (File I/O, multer and
the xlsx read are the excluded boundary.) -/
def handleUpload (sheetName : String) (aoa : List (List Cell)) : UploadResult :=
  let tablePreview : TablePreview := { sheetName := sheetName, rows := aoa.take 50 }
  match parseOverviewStyle aoa with
  | none => .formatNotRecognized formatErrorMsg tablePreview
  | some p => .success "overview-style" sheetName p.labels p.series
      (computeKPIsFromSeries p.labels p.series) tablePreview

/-! ## Frontend: computeCostPerMessageSeries -/

/-- One loop iteration of the frontend's `computeCostPerMessageSeries` when
both arrays still have an entry at the current index:
`s = Number(spentArr[i])` coerces null to `0`; `m = Number(msgArr[i])`
likewise, so a null or zero message count yields null, and otherwise the
(coerced) quotient is emitted. -/
def cpmEntry (s m : Option ℚ) : Option ℚ :=
  match m with
  | none => none
  | some mv => if mv = 0 then none else some (s.getD 0 / mv)

/-- The frontend's `computeCostPerMessageSeries`, iterating to the larger of
the two lengths.  An index past either array reads `undefined`, which
`Number` coerces to NaN, failing the finiteness guard — those are the
one-sided branches. -/
def computeCostPerMessageSeries : List (Option ℚ) → List (Option ℚ) → List (Option ℚ)
  | [], ma => ma.map (fun _ => none)
  | s :: st, m :: mt => cpmEntry s m :: computeCostPerMessageSeries st mt
  | _ :: st, [] => none :: computeCostPerMessageSeries st []

/-- Modelled from the spec's words for C4 (refinement target, compared with
`computeCostPerMessageSeries`): `spent[i] / messages[i]` when both entries
are finite numbers and `messages[i] ≠ 0`, null otherwise — in particular
null when `spent[i]` is null. -/
def cpmSpecEntry (s m : Option ℚ) : Option ℚ :=
  match s, m with
  | some sv, some mv => if mv = 0 then none else some (sv / mv)
  | _, _ => none

/-- Modelled from the spec's words for C4: the positional series the claim
describes, null at any index where either operand is null or missing. -/
def computeCostPerMessageSeriesSpec : List (Option ℚ) → List (Option ℚ) → List (Option ℚ)
  | [], ma => ma.map (fun _ => none)
  | s :: st, m :: mt => cpmSpecEntry s m :: computeCostPerMessageSeriesSpec st mt
  | _ :: st, [] => none :: computeCostPerMessageSeriesSpec st []

/-! ## Theorems -/

/-- The strip-and-parse branch only ever returns null or a finite number. -/
theorem numParse_shape (s : String) :
    numParse s = none ∨ ∃ q, numParse s = some (JsNum.fin q) := by
  unfold numParse
  by_cases h : jsTrim (stripSymbols s) = ""
  · left
    simp [h]
  · rw [if_neg h]
    cases jsStringToNumber (jsTrim (stripSymbols s)) with
    | fin q => exact Or.inr ⟨q, rfl⟩
    | nan => exact Or.inl rfl
    | inf => exact Or.inl rfl
    | negInf => exact Or.inl rfl

/-- `toNumberJs` on a string, by definition. -/
theorem toNumberJs_str (s : String) :
    toNumberJs (Cell.str s) =
      if jsTrim s = "" ∨ jsTrim s = "-" ∨ jsTrim s = "—" then none else numParse s := rfl

/-- C10: `toNumber` is total on arbitrary cell values — null/undefined,
strings, numbers, `Date`s, booleans — and its result is always either a
finite number or null, never NaN or Infinity (the `.fin` constructor carries
an exact rational); in particular a date-valued cell and a boolean cell
normalize to null, not to a numeric timestamp.  Totality (no exception) is
witnessed by `toNumberJs` being a total Lean function over all of `Cell`. -/
theorem toNumber_total_never_nonfinite :
    (∀ c, toNumberJs c = none ∨ ∃ q, toNumberJs c = some (JsNum.fin q)) ∧
    (∀ t, toNumberJs (Cell.date t) = none) ∧
    (∀ b, toNumberJs (Cell.bool b) = none) := by
  have hdate : ∀ t, toNumberJs (Cell.date t) = none := by
    intro t
    rw [show toNumberJs (Cell.date t) = numParse (dateToString 0) from rfl]
    decide
  have hbool : ∀ b, toNumberJs (Cell.bool b) = none := by
    intro b
    cases b <;> decide
  refine ⟨?_, hdate, hbool⟩
  intro c
  cases c with
  | empty => exact Or.inl rfl
  | str s =>
    rw [toNumberJs_str]
    by_cases h : jsTrim s = "" ∨ jsTrim s = "-" ∨ jsTrim s = "—"
    · left
      rw [if_pos h]
    · rw [if_neg h]
      exact numParse_shape s
  | num j =>
    cases j with
    | fin q => exact Or.inr ⟨q, rfl⟩
    | nan => exact Or.inl rfl
    | inf => exact Or.inl rfl
    | negInf => exact Or.inl rfl
  | date t => exact Or.inl (hdate t)
  | bool b => exact Or.inl (hbool b)

/-- The claim's description of `toNumber`'s generic branch at the `Option ℚ`
level: strip currency symbols, commas and whitespace; the parsed number if
finite, null otherwise (an empty remainder has no number to return). -/
def parsedCleaned (s : String) : Option ℚ :=
  match numParse s with
  | some (.fin q) => some q
  | _ => none

/-- C2: `toNumber` returns null — never 0 — on null/undefined, on a string
that is empty after trimming (hence on whitespace-only strings), on a bare
hyphen and on an em-dash; a finite number is returned unchanged; a non-finite
number returns null; any other string is parsed after stripping currency
symbols, commas and whitespace, giving the parsed number if finite and null
otherwise. -/
theorem toNumber_blank_policy :
    (toNumber Cell.empty = none) ∧
    (∀ s, jsTrim s = "" ∨ jsTrim s = "-" ∨ jsTrim s = "—" → toNumber (Cell.str s) = none) ∧
    (∀ q, toNumber (Cell.num (JsNum.fin q)) = some q) ∧
    (toNumber (Cell.num JsNum.nan) = none ∧ toNumber (Cell.num JsNum.inf) = none ∧
      toNumber (Cell.num JsNum.negInf) = none) ∧
    (∀ s, ¬(jsTrim s = "" ∨ jsTrim s = "-" ∨ jsTrim s = "—") →
      toNumber (Cell.str s) = parsedCleaned s) := by
  refine ⟨rfl, ?_, fun q => rfl, ⟨rfl, rfl, rfl⟩, ?_⟩
  · intro s h
    unfold toNumber
    rw [toNumberJs_str, if_pos h]
  · intro s h
    unfold toNumber parsedCleaned
    rw [toNumberJs_str, if_neg h]

unseal Rat.mul Rat.add Rat.inv Rat.sub in
/-- C2 witness: a padded hyphen is null (not 0); a currency-formatted string
parses to its numeric value. -/
theorem toNumber_blank_policy_witness :
    toNumber (Cell.str " - ") = none ∧ toNumber (Cell.str "₱1,200.50") = some (2401 / 2) := by
  constructor
  · exact toNumber_blank_policy.2.1 " - " (Or.inr (Or.inl (by decide)))
  · rw [toNumber_blank_policy.2.2.2.2 "₱1,200.50" (by decide)]
    decide

/-- A successful `findFirstIdx` hit is in range, satisfies the predicate, and
is preceded only by misses. -/
theorem findFirstIdx_some (p : Nat → Bool) :
    ∀ fuel start r, findFirstIdx p start fuel = some r →
      start ≤ r ∧ r < start + fuel ∧ p r = true ∧ ∀ j, start ≤ j → j < r → p j = false := by
  intro fuel
  induction fuel with
  | zero =>
    intro start r h
    simp [findFirstIdx] at h
  | succ n ih =>
    intro start r h
    rw [findFirstIdx] at h
    split at h
    next hp =>
      cases h
      exact ⟨Nat.le_refl _, by omega, hp, fun j hj1 hj2 => absurd hj1 (by omega)⟩
    next hp =>
      obtain ⟨h1, h2, h3, h4⟩ := ih (start + 1) r h
      refine ⟨by omega, by omega, h3, ?_⟩
      intro j hj1 hj2
      rcases Nat.eq_or_lt_of_le hj1 with heq | hlt
      · rw [← heq]
        revert hp
        cases p start <;> simp
      · exact h4 j (by omega) hj2

/-- `findFirstIdx` misses exactly when every index in range misses. -/
theorem findFirstIdx_none (p : Nat → Bool) :
    ∀ fuel start, findFirstIdx p start fuel = none ↔
      ∀ j, start ≤ j → j < start + fuel → p j = false := by
  intro fuel
  induction fuel with
  | zero =>
    intro start
    simp only [findFirstIdx]
    constructor
    · intro _ j hj1 hj2
      exact absurd hj1 (by omega)
    · intro _
      trivial
  | succ n ih =>
    intro start
    rw [findFirstIdx]
    split
    next hp =>
      constructor
      · intro h
        cases h
      · intro hall
        have hfalse := hall start (Nat.le_refl _) (by omega)
        rw [hp] at hfalse
        cases hfalse
    next hp =>
      rw [ih (start + 1)]
      constructor
      · intro h j hj1 hj2
        rcases Nat.eq_or_lt_of_le hj1 with heq | hlt
        · rw [← heq]
          revert hp
          cases p start <;> simp
        · exact h j (by omega) (by omega)
      · intro h j hj1 hj2
        exact h j (by omega) (by omega)

/-- C5: the header-row locator returns the smallest row index `r` with
`r < min(rowCount, 60)` whose date-like cell count at column index ≥ 1 is at
least 3, and returns "not found" exactly when no row in the scanned window
has at least 3 such cells. -/
theorem headerLocator_first_qualifying (aoa : List (List Cell)) :
    (∀ r, locateHeader aoa = some r →
      r < min aoa.length 60 ∧ 3 ≤ rowDateLikeCount (aoa.getD r []) ∧
        ∀ j, j < r → rowDateLikeCount (aoa.getD j []) < 3) ∧
    (locateHeader aoa = none ↔
      ∀ r, r < min aoa.length 60 → rowDateLikeCount (aoa.getD r []) < 3) := by
  constructor
  · intro r h
    obtain ⟨h1, h2, h3, h4⟩ := findFirstIdx_some _ _ _ _ h
    refine ⟨by omega, by simpa using h3, ?_⟩
    intro j hj
    have hf := h4 j (by omega) hj
    simpa using hf
  · rw [locateHeader, findFirstIdx_none]
    constructor
    · intro h r hr
      have hf := h r (by omega) (by omega)
      simpa using hf
    · intro h j hj1 hj2
      have := h j (by omega)
      simpa using this

/-- Grid for the C5 witness: rows 0–1 have no date-like cells, row 2 has four
date cells in columns 1–4. -/
def c5grid : List (List Cell) :=
  [[Cell.str "a"], [Cell.str "b"],
   [Cell.str "", Cell.date 0, Cell.date 1, Cell.date 2, Cell.date 3],
   [Cell.str "x"]]

/-- C5 witness: on `c5grid` the locator answers row 2, and the theorem
certifies its qualifying count. -/
theorem headerLocator_first_qualifying_witness :
    3 ≤ rowDateLikeCount (c5grid.getD 2 []) ∧ 2 < min c5grid.length 60 := by
  have h := (headerLocator_first_qualifying c5grid).1 2 (by decide)
  exact ⟨h.2.1, h.1⟩

/-- C7: whenever the header-row locator finds no qualifying row, the caller
receives the structured format-not-recognized result carrying exactly the
first 50 rows of the raw grid as preview (fewer if the grid is shorter) — by
construction not the success shape, and with no exception (`handleUpload` is
total). -/
theorem uploadFailure_preview (sheetName : String) (aoa : List (List Cell))
    (h : locateHeader aoa = none) :
    handleUpload sheetName aoa =
      UploadResult.formatNotRecognized formatErrorMsg
        { sheetName := sheetName, rows := aoa.take 50 } ∧
    (aoa.take 50).length = min 50 aoa.length := by
  constructor
  · simp [handleUpload, parseOverviewStyle, h]
  · exact List.length_take 50 aoa

/-- C7 witness: a one-row grid with no date-like cells is answered with the
422 payload and its (single-row) preview. -/
theorem uploadFailure_preview_witness :
    handleUpload "Sheet1" [[Cell.str "hello"]] =
      UploadResult.formatNotRecognized formatErrorMsg
        { sheetName := "Sheet1", rows := [[Cell.str "hello"]] } := by
  exact (uploadFailure_preview "Sheet1" [[Cell.str "hello"]] (by decide)).1

/-- Membership after a JS-object insert: the member is the inserted value or
was already present. -/
theorem seriesInsert_mem {s : Series} {k : String} {v : List (Option ℚ)}
    {kv : String × List (Option ℚ)} (h : kv ∈ seriesInsert s k v) :
    kv.2 = v ∨ kv ∈ s := by
  unfold seriesInsert at h
  split at h
  · obtain ⟨p, hp, heq⟩ := List.mem_map.mp h
    by_cases hk : (p.1 == k) = true
    · rw [if_pos hk] at heq
      left
      rw [← heq]
    · rw [if_neg hk] at heq
      right
      rw [← heq]
      exact hp
  · rcases List.mem_append.mp h with h | h
    · right
      exact h
    · left
      have : kv = (k, v) := by simpa using h
      rw [this]

/-- Fold invariant for the series-extraction loop: if every stored value row
has length `n` and every remaining grid row's tail has length `n`, the final
series' value rows all have length `n`. -/
theorem extractSeries_foldl_len (n : Nat) :
    ∀ rows ser, (∀ kv ∈ ser, (kv.2 : List (Option ℚ)).length = n) →
      (∀ row ∈ rows, (List.length (row : List Cell)) - 1 = n) →
      ∀ kv ∈ List.foldl extractRow ser rows, kv.2.length = n := by
  intro rows
  induction rows with
  | nil =>
    intro ser hser _ kv hkv
    exact hser kv hkv
  | cons r rs ih =>
    intro ser hser hrows kv hkv
    refine ih (extractRow ser r) ?_ (fun row h => hrows row (List.mem_cons_of_mem _ h)) kv hkv
    intro kv' hkv'
    unfold extractRow at hkv'
    split at hkv'
    · exact hser kv' hkv'
    · split at hkv'
      · rcases seriesInsert_mem hkv' with h | h
        · rw [h]
          have := hrows r (List.mem_cons_self _ _)
          simpa using this
        · exact hser kv' h
      · exact hser kv' hkv'

/-- C3 counterexample grid: the header row has 3 label columns but the data
row "M" has a tail of length 1. -/
def c3grid : List (List Cell) :=
  [[Cell.str "Metrics", Cell.date 0, Cell.date 1, Cell.date 2],
   [Cell.str "M", Cell.num (JsNum.fin 5)]]

/-- C3 counterexample: on a grid whose data row is shorter than the header
row, extraction succeeds with 3 labels but the series row "M" has only 1
value — the claimed invariant `len(series[m]) = len(labels)` fails. -/
theorem series_label_length_counterexample :
    (parseOverviewStyle c3grid).map (fun p => p.labels.length) = some 3 ∧
    (parseOverviewStyle c3grid).map (fun p => p.series.map (fun kv => kv.2.length)) =
      some [1] := by
  constructor
  · decide
  · decide

/-- C3 as amended: for grids all of whose rows have one common length, every
metric's value sequence has exactly the label count's length; in general each
value sequence has the length of its own originating row's tail, so the
invariant holds exactly for data rows as long as the header row. -/
theorem series_label_length_amended (aoa : List (List Cell)) (L : Nat) (p : Parsed)
    (hL : ∀ row ∈ aoa, List.length row = L)
    (hp : parseOverviewStyle aoa = some p) :
    p.labels.length = L - 1 ∧ ∀ kv ∈ p.series, kv.2.length = p.labels.length := by
  unfold parseOverviewStyle at hp
  cases hh : locateHeader aoa with
  | none => rw [hh] at hp; cases hp
  | some h =>
    rw [hh] at hp
    obtain ⟨hb1, hb2, hb3, hb4⟩ := findFirstIdx_some _ _ _ _ hh
    have hlen : h < aoa.length := by omega
    have hmem : aoa.getD h [] ∈ aoa := by
      rw [List.getD_eq_getElem?_getD, List.getElem?_eq_getElem hlen]
      exact List.getElem_mem hlen
    have hrowlen : (aoa.getD h []).length = L := hL _ hmem
    have hlabels : p.labels.length = L - 1 := by
      have : p.labels = ((aoa.getD h []).drop 1).map labelOfCell := by
        cases hp
        rfl
      rw [this, List.length_map, List.length_drop, hrowlen]
    refine ⟨hlabels, ?_⟩
    intro kv hkv
    rw [hlabels]
    have hser : p.series = extractSeries (aoa.drop (h + 1)) := by
      cases hp
      rfl
    rw [hser] at hkv
    refine extractSeries_foldl_len (L - 1) (aoa.drop (h + 1)) [] (by intro kv h; cases h) ?_ kv hkv
    intro row hrow
    have : row ∈ aoa := List.drop_subset _ _ hrow
    rw [hL row this]

/-- C3 witness: on a rectangular grid (all rows of length 4) every extracted
series row has the labels' length 3. -/
theorem series_label_length_amended_witness :
    (parseOverviewStyle
        [[Cell.str "Metrics", Cell.date 0, Cell.date 1, Cell.date 2],
         [Cell.str "M", Cell.num (JsNum.fin 5), Cell.empty, Cell.num (JsNum.fin 7)]]).map
      (fun p => p.labels.length) = some 3 ∧
    ∀ kv ∈ (extractSeries
        [[Cell.str "M", Cell.num (JsNum.fin 5), Cell.empty, Cell.num (JsNum.fin 7)]]),
      kv.2.length = 3 := by
  have h := series_label_length_amended
    [[Cell.str "Metrics", Cell.date 0, Cell.date 1, Cell.date 2],
     [Cell.str "M", Cell.num (JsNum.fin 5), Cell.empty, Cell.num (JsNum.fin 7)]] 4
    { labels := ["Jan 70", "Jan 70", "Jan 70"],
      series := [("M", [some 5, none, some 7])] }
    (by decide) (by decide)
  constructor
  · decide
  · intro kv hkv
    have heq : extractSeries
        [[Cell.str "M", Cell.num (JsNum.fin 5), Cell.empty, Cell.num (JsNum.fin 7)]] =
        [("M", [some 5, none, some 7])] := by decide
    rw [heq] at hkv
    have h2 := h.2 kv hkv
    rw [h2, h.1]

/-- Modelled from the spec's words for C9 (refinement target, compared with
`findKeyChain`): first check every alias for an exact case-insensitive match
against the Series keys, and only if no alias matches exactly fall back to a
substring pass over all aliases; first match wins. -/
def resolveMetricSpec (series : Series) (aliases : List String) : Option String :=
  match aliases.findSome? (fun a => exactFind series (jsToLower a)) with
  | some k => some k
  | none => aliases.findSome? (fun a => subFind series (jsToLower a))

/-- C9 series for the counterexample: the second alias "Amount spent" hits
"Amount spent daily" by substring before the third alias "Ad Spent" is ever
tried, although "Ad Spent" matches a key exactly. -/
def c9series : Series :=
  [("Amount spent daily", [some 1]), ("Ad Spent", [some 2])]

/-- C9 counterexample: the code's per-alias exact-then-substring chain picks
"Amount spent daily", while the claimed global exact-pass-first procedure
picks "Ad Spent". -/
theorem findKey_order_counterexample :
    keySpentOf c9series = some "Amount spent daily" ∧
    resolveMetricSpec c9series spentAliases = some "Ad Spent" ∧
    keySpentOf c9series ≠ resolveMetricSpec c9series spentAliases := by
  refine ⟨by decide, by decide, by decide⟩

/-- If no alias matches at all, the chain resolves to absent. -/
theorem findKeyChain_all_none (series : Series) :
    ∀ as : List String, (∀ x ∈ as, findKey series x = none) →
      findKeyChain series as = none := by
  intro as
  induction as with
  | nil =>
    intro _
    rfl
  | cons a rest ih =>
    intro h
    cases rest with
    | nil => exact h a (List.mem_cons_self _ _)
    | cons b r =>
      show jsOrStr (findKey series a) (findKeyChain series (b :: r)) = none
      rw [h a (List.mem_cons_self _ _)]
      exact ih (fun x hx => h x (List.mem_cons_of_mem _ hx))

/-- C9 as amended: resolution tries each alias in the given order, checking
that alias against the keys by exact case-insensitive match first and then by
case-insensitive substring match; the next alias is consulted only when the
current alias matches no key at all; the first key found wins; if no alias
matches either way the metric resolves to absent. -/
theorem findKey_order_amended (series : Series) (a : String) (rest : List String) :
    (∀ k, exactFind series (jsToLower a) = some k → k ≠ "" →
      findKey series a = some k) ∧
    (exactFind series (jsToLower a) = none →
      findKey series a = subFind series (jsToLower a)) ∧
    (∀ k, findKey series a = some k → k ≠ "" →
      findKeyChain series (a :: rest) = some k) ∧
    (findKey series a = none →
      findKeyChain series (a :: rest) = findKeyChain series rest) ∧
    ((∀ x ∈ a :: rest, findKey series x = none) →
      findKeyChain series (a :: rest) = none) := by
  refine ⟨?_, ?_, ?_, ?_, findKeyChain_all_none series (a :: rest)⟩
  · intro k hk hne
    unfold findKey jsOrStr
    rw [hk]
    have : strTruthy (some k) = true := by
      simp [strTruthy]
      exact hne
    rw [this]
    simp
  · intro hk
    unfold findKey jsOrStr
    rw [hk]
    rfl
  · intro k hk hne
    cases rest with
    | nil => exact hk
    | cons b r =>
      show jsOrStr (findKey series a) (findKeyChain series (b :: r)) = some k
      rw [hk]
      unfold jsOrStr
      have : strTruthy (some k) = true := by
        simp [strTruthy]
        exact hne
      rw [this]
      simp
  · intro hk
    cases rest with
    | nil =>
      show findKey series a = findKeyChain series []
      rw [hk]
      rfl
    | cons b r =>
      show jsOrStr (findKey series a) (findKeyChain series (b :: r)) = _
      rw [hk]
      rfl

/-- C9 witness: on `c9series`, the second alias matches by substring and the
chain answers it. -/
theorem findKey_order_amended_witness :
    findKeyChain c9series ["Amount spent", "Ad Spent"] = some "Amount spent daily" := by
  exact (findKey_order_amended c9series "Amount spent" ["Ad Spent"]).2.2.1
    "Amount spent daily" (by decide) (by decide)

/-- C1: the scalar CAC KPI is the arithmetic mean of the non-null positive
values of the resolved CAC series whenever at least one such value exists
(zeros and nulls excluded from sum and count), and otherwise — including when
no CAC row resolves — it is `totals.spent / totals.customers` under the
null-safe division policy. -/
theorem cac_preference_order (labels : List String) (series : Series) :
    (((arrOf series (keyCACOf series)).filterMap id).filter (fun n => decide (0 < n)) ≠ [] →
      (computeKPIsFromSeries labels series).kpis.cac =
        some ((((arrOf series (keyCACOf series)).filterMap id).filter
            (fun n => decide (0 < n))).foldl (· + ·) 0 /
          ((((arrOf series (keyCACOf series)).filterMap id).filter
            (fun n => decide (0 < n))).length : ℚ))) ∧
    (((arrOf series (keyCACOf series)).filterMap id).filter (fun n => decide (0 < n)) = [] →
      (computeKPIsFromSeries labels series).kpis.cac =
        safeDivide (computeKPIsFromSeries labels series).totals.spent
          (computeKPIsFromSeries labels series).totals.customers) := by
  have hcac : (computeKPIsFromSeries labels series).kpis.cac = cacOf series := rfl
  constructor
  · intro hne
    have havg : avgFinite (arrOf series (keyCACOf series)) =
        some ((((arrOf series (keyCACOf series)).filterMap id).filter
            (fun n => decide (0 < n))).foldl (· + ·) 0 /
          ((((arrOf series (keyCACOf series)).filterMap id).filter
            (fun n => decide (0 < n))).length : ℚ)) := by
      unfold avgFinite
      rw [if_neg (by simpa [List.isEmpty_iff] using hne)]
    rw [hcac]
    unfold cacOf
    rw [havg]
  · intro heq
    have havg : avgFinite (arrOf series (keyCACOf series)) = none := by
      unfold avgFinite
      rw [if_pos (by simpa [List.isEmpty_iff] using heq)]
    rw [hcac]
    unfold cacOf
    rw [havg]
    rfl

/-- C1 series for the witness: a CAC row `[1000, 0, 1200]` next to resolvable
spend and customers rows whose blended quotient would be 5. -/
def c1series : Series :=
  [("Ad Spent", [some 10]), ("No. of Customers", [some 2]),
   ("CAC", [some 1000, some 0, some 1200])]

unseal Rat.mul Rat.add Rat.inv Rat.sub in
/-- C1 witness: the CAC KPI on `c1series` is `(1000 + 1200) / 2 = 1100`,
ignoring the zero — not the blended `spent / customers = 5`. -/
theorem cac_preference_order_witness :
    (computeKPIsFromSeries [] c1series).kpis.cac = some 1100 ∧
    some (1100 : ℚ) ≠ safeDivide (some 10) (some 2) := by
  constructor
  · rw [(cac_preference_order [] c1series).1 (by decide)]
    decide
  · decide

/-- A metric's per-month average equals its total over `max 1 count` of its
own non-null entries, and is null when its total is null. -/
theorem avgOf_spec (series : Series) (key : Option String) :
    (∀ t, totalOf series key = some t →
      avgOf series key = some (t / ((max 1 (countFinite (arrOf series key)) : Nat) : ℚ))) ∧
    (totalOf series key = none → avgOf series key = none) := by
  constructor
  · intro t ht
    unfold avgOf
    rw [ht]
    simp [monthsOf, Nat.max_comm]
  · intro ht
    unfold avgOf
    rw [ht]
    rfl

/-- C6: for each canonical metric, whenever its total is non-null the
per-month average equals the total divided by `max(1, count of non-null
values of that metric's own resolved series)` — a per-metric denominator —
and the average is null whenever the total is null. -/
theorem averagesPerMonth_per_metric (labels : List String) (series : Series) :
    ((∀ t, (computeKPIsFromSeries labels series).totals.spent = some t →
      (computeKPIsFromSeries labels series).averagesPerMonth.spent =
        some (t / ((max 1 (countFinite (arrOf series (keySpentOf series))) : Nat) : ℚ))) ∧
     ((computeKPIsFromSeries labels series).totals.spent = none →
      (computeKPIsFromSeries labels series).averagesPerMonth.spent = none)) ∧
    ((∀ t, (computeKPIsFromSeries labels series).totals.messages = some t →
      (computeKPIsFromSeries labels series).averagesPerMonth.messages =
        some (t / ((max 1 (countFinite (arrOf series (keyMsgsOf series))) : Nat) : ℚ))) ∧
     ((computeKPIsFromSeries labels series).totals.messages = none →
      (computeKPIsFromSeries labels series).averagesPerMonth.messages = none)) ∧
    ((∀ t, (computeKPIsFromSeries labels series).totals.revenue = some t →
      (computeKPIsFromSeries labels series).averagesPerMonth.revenue =
        some (t / ((max 1 (countFinite (arrOf series (keyRevenueOf series))) : Nat) : ℚ))) ∧
     ((computeKPIsFromSeries labels series).totals.revenue = none →
      (computeKPIsFromSeries labels series).averagesPerMonth.revenue = none)) ∧
    ((∀ t, (computeKPIsFromSeries labels series).totals.customers = some t →
      (computeKPIsFromSeries labels series).averagesPerMonth.customers =
        some (t / ((max 1 (countFinite (arrOf series (keyCustomersOf series))) : Nat) : ℚ))) ∧
     ((computeKPIsFromSeries labels series).totals.customers = none →
      (computeKPIsFromSeries labels series).averagesPerMonth.customers = none)) := by
  exact ⟨avgOf_spec series (keySpentOf series), avgOf_spec series (keyMsgsOf series),
    avgOf_spec series (keyRevenueOf series), avgOf_spec series (keyCustomersOf series)⟩

unseal Rat.mul Rat.add Rat.inv Rat.sub in
/-- C6 witness: spend total 30 over 2 non-null months averages to 15 (the
label span and other metrics do not enter); unresolved messages average null. -/
theorem averagesPerMonth_per_metric_witness :
    (computeKPIsFromSeries [] [("Ad Spent", [some 10, none, some 20])]).averagesPerMonth.spent =
      some 15 ∧
    (computeKPIsFromSeries [] [("Ad Spent", [some 10, none, some 20])]).averagesPerMonth.messages =
      none := by
  constructor
  · rw [(averagesPerMonth_per_metric [] [("Ad Spent", [some 10, none, some 20])]).1.1 30
      (by decide)]
    decide
  · exact (averagesPerMonth_per_metric [] [("Ad Spent", [some 10, none, some 20])]).2.1.2
      (by decide)

/-- The guards of `safeDivide`: null on any null operand or zero denominator,
the exact quotient otherwise. -/
theorem safeDivide_null_guard (a b : Option ℚ) :
    ((a = none ∨ b = none ∨ b = some 0) → safeDivide a b = none) ∧
    (∀ x y, a = some x → b = some y → y ≠ 0 → safeDivide a b = some (x / y)) := by
  constructor
  · intro h
    rcases h with h | h | h
    · rw [h]
      cases b <;> rfl
    · rw [h]
      cases a <;> rfl
    · rw [h]
      cases a with
      | none => rfl
      | some x =>
        show (if (0 : ℚ) = 0 then none else some (x / 0)) = none
        rw [if_pos rfl]
  · intro x y hx hy hne
    rw [hx, hy]
    show (if y = 0 then none else some (x / y)) = some (x / y)
    rw [if_neg hne]

/-- C8: `costPerMessage` and `roas` are null whenever the respective
numerator or denominator total is null (metric unresolved) or the denominator
is zero, and are (finite, by the `Option ℚ` value type) quotients otherwise;
the computation is a total function, so it never throws. -/
theorem kpi_division_guards (labels : List String) (series : Series) :
    (((computeKPIsFromSeries labels series).totals.spent = none ∨
      (computeKPIsFromSeries labels series).totals.messages = none ∨
      (computeKPIsFromSeries labels series).totals.messages = some 0) →
      (computeKPIsFromSeries labels series).kpis.costPerMessage = none) ∧
    (∀ s m, (computeKPIsFromSeries labels series).totals.spent = some s →
      (computeKPIsFromSeries labels series).totals.messages = some m → m ≠ 0 →
      (computeKPIsFromSeries labels series).kpis.costPerMessage = some (s / m)) ∧
    (((computeKPIsFromSeries labels series).totals.revenue = none ∨
      (computeKPIsFromSeries labels series).totals.spent = none ∨
      (computeKPIsFromSeries labels series).totals.spent = some 0) →
      (computeKPIsFromSeries labels series).kpis.roas = none) ∧
    (∀ r s, (computeKPIsFromSeries labels series).totals.revenue = some r →
      (computeKPIsFromSeries labels series).totals.spent = some s → s ≠ 0 →
      (computeKPIsFromSeries labels series).kpis.roas = some (r / s)) := by
  exact ⟨(safeDivide_null_guard (totalOf series (keySpentOf series))
      (totalOf series (keyMsgsOf series))).1,
    (safeDivide_null_guard (totalOf series (keySpentOf series))
      (totalOf series (keyMsgsOf series))).2,
    (safeDivide_null_guard (totalOf series (keyRevenueOf series))
      (totalOf series (keySpentOf series))).1,
    (safeDivide_null_guard (totalOf series (keyRevenueOf series))
      (totalOf series (keySpentOf series))).2⟩

/-- C8 series for the witness. -/
def c8series : Series :=
  [("Ad Spent", [some 10]), ("Messages", [some 4]), ("Revenue", [some 30])]

unseal Rat.mul Rat.add Rat.inv Rat.sub in
/-- C8 witness: with spend 10, messages 4 and revenue 30 the guards pass and
the KPIs are the finite quotients 5/2 and 3. -/
theorem kpi_division_guards_witness :
    (computeKPIsFromSeries [] c8series).kpis.costPerMessage = some (5 / 2) ∧
    (computeKPIsFromSeries [] c8series).kpis.roas = some 3 := by
  constructor
  · rw [(kpi_division_guards [] c8series).2.1 10 4 (by decide) (by decide) (by norm_num)]
    decide
  · rw [(kpi_division_guards [] c8series).2.2.2 30 10 (by decide) (by decide) (by norm_num)]
    decide

/-- Index view of the frontend loop: both entries must be present (else the
`Number(undefined) = NaN` coercion fails the finiteness guard). -/
def cpmAt (sa ma : List (Option ℚ)) (i : Nat) : Option ℚ :=
  match sa.get? i, ma.get? i with
  | some s, some m => cpmEntry s m
  | _, _ => none

/-- The output length is the larger input length. -/
theorem cpms_length :
    ∀ sa ma, (computeCostPerMessageSeries sa ma).length = max sa.length ma.length := by
  intro sa
  induction sa with
  | nil =>
    intro ma
    simp [computeCostPerMessageSeries]
  | cons s st ih =>
    intro ma
    cases ma with
    | nil =>
      show (none :: computeCostPerMessageSeries st []).length = _
      simp [ih []]
    | cons m mt =>
      show (cpmEntry s m :: computeCostPerMessageSeries st mt).length = _
      simp [ih mt]
      omega

/-- Entry-wise characterization of the frontend loop. -/
theorem cpms_get? :
    ∀ sa ma i, (computeCostPerMessageSeries sa ma).get? i =
      if i < max sa.length ma.length then some (cpmAt sa ma i) else none := by
  intro sa
  induction sa with
  | nil =>
    intro ma i
    show (ma.map fun _ => (none : Option ℚ)).get? i = _
    rw [List.get?_eq_getElem?, List.getElem?_map, ← List.get?_eq_getElem?]
    by_cases h : i < ma.length
    · rw [List.get?_eq_get h]
      simp [cpmAt, h]
    · rw [List.get?_eq_none.mpr (by omega)]
      rw [if_neg (by simp; omega)]
      rfl
  | cons s st ih =>
    intro ma i
    cases ma with
    | nil =>
      show (none :: computeCostPerMessageSeries st []).get? i = _
      cases i with
      | zero => simp [cpmAt]
      | succ n =>
        show (computeCostPerMessageSeries st []).get? n = _
        rw [ih [] n]
        have hm : max (st.length + 1) ([] : List (Option ℚ)).length = st.length + 1 := by
          simp
        by_cases h : n < max st.length ([] : List (Option ℚ)).length
        · rw [if_pos h, if_pos (by simp at h ⊢; omega)]
          rfl
        · rw [if_neg h, if_neg (by simp at h ⊢; omega)]
    | cons m mt =>
      show (cpmEntry s m :: computeCostPerMessageSeries st mt).get? i = _
      cases i with
      | zero => simp [cpmAt]
      | succ n =>
        show (computeCostPerMessageSeries st mt).get? n = _
        rw [ih mt n]
        by_cases h : n < max st.length mt.length
        · rw [if_pos h, if_pos (by simp at h ⊢; omega)]
          rfl
        · rw [if_neg h, if_neg (by simp at h ⊢; omega)]

unseal Rat.mul Rat.add Rat.inv Rat.sub in
/-- C4 counterexample: at an index where spent is null and messages is a
finite nonzero number, the chart series value is `0` — because
`Number(null)` coerces to `0`, which passes the finiteness guard — while the
claim (formalized verbatim as `computeCostPerMessageSeriesSpec`) demands
null there. -/
theorem cpm_series_counterexample :
    computeCostPerMessageSeries [none] [some 5] = [some 0] ∧
    computeCostPerMessageSeriesSpec [none] [some 5] = [none] ∧
    computeCostPerMessageSeries [none] [some 5] ≠
      computeCostPerMessageSeriesSpec [none] [some 5] := by
  refine ⟨by decide, by decide, by decide⟩

/-- C4 as amended: the per-month cost-per-message series has one entry per
index up to the longer input; at each index it is `spent[i] / messages[i]`
when both are present finite numbers and `messages[i] ≠ 0`; it is null when
`messages[i]` is null, zero or missing, and null when `spent[i]` is missing
beyond the array's length; but when `spent[i]` is null (present) and
`messages[i]` is a finite nonzero number, the JS `Number(null) = 0` coercion
makes the entry `0`, not null. -/
theorem cpm_series_amended (sa ma : List (Option ℚ)) :
    ((computeCostPerMessageSeries sa ma).length = max sa.length ma.length) ∧
    (∀ i s m, sa.get? i = some (some s) → ma.get? i = some (some m) → m ≠ 0 →
      (computeCostPerMessageSeries sa ma).get? i = some (some (s / m))) ∧
    (∀ i m, sa.get? i = some none → ma.get? i = some (some m) → m ≠ 0 →
      (computeCostPerMessageSeries sa ma).get? i = some (some 0)) ∧
    (∀ i, i < max sa.length ma.length →
      (ma.get? i = some none ∨ ma.get? i = some (some 0) ∨ ma.get? i = none) →
      (computeCostPerMessageSeries sa ma).get? i = some none) ∧
    (∀ i, i < max sa.length ma.length → sa.get? i = none →
      (computeCostPerMessageSeries sa ma).get? i = some none) := by
  refine ⟨cpms_length sa ma, ?_, ?_, ?_, ?_⟩
  · intro i s m hs hm hne
    have hi : i < sa.length := by
      by_contra hc
      rw [List.get?_eq_none.mpr (by omega)] at hs
      cases hs
    rw [cpms_get? sa ma i, if_pos (Nat.lt_of_lt_of_le hi (Nat.le_max_left _ _))]
    unfold cpmAt
    rw [hs, hm]
    show some (if m = 0 then none else some ((some s).getD 0 / m)) = _
    rw [if_neg hne]
    rfl
  · intro i m hs hm hne
    have hi : i < sa.length := by
      by_contra hc
      rw [List.get?_eq_none.mpr (by omega)] at hs
      cases hs
    rw [cpms_get? sa ma i, if_pos (Nat.lt_of_lt_of_le hi (Nat.le_max_left _ _))]
    unfold cpmAt
    rw [hs, hm]
    show some (if m = 0 then none else some ((none : Option ℚ).getD 0 / m)) = _
    rw [if_neg hne]
    norm_num
  · intro i hi hm
    rw [cpms_get? sa ma i, if_pos hi]
    rcases hm with hm | hm | hm
    · cases hsa : sa.get? i with
      | none => simp [cpmAt, ← List.get?_eq_getElem?, hsa, hm]
      | some s => simp [cpmAt, ← List.get?_eq_getElem?, hsa, hm, cpmEntry]
    · cases hsa : sa.get? i with
      | none => simp [cpmAt, ← List.get?_eq_getElem?, hsa, hm]
      | some s => simp [cpmAt, ← List.get?_eq_getElem?, hsa, hm, cpmEntry]
    · cases hsa : sa.get? i with
      | none => simp [cpmAt, ← List.get?_eq_getElem?, hsa, hm]
      | some s => simp [cpmAt, ← List.get?_eq_getElem?, hsa, hm]
  · intro i hi hs
    cases hma : ma.get? i with
    | none =>
      rw [cpms_get? sa ma i, if_pos hi]
      simp [cpmAt, ← List.get?_eq_getElem?, hs, hma]
    | some m =>
      rw [cpms_get? sa ma i, if_pos hi]
      simp [cpmAt, ← List.get?_eq_getElem?, hs, hma]

unseal Rat.mul Rat.add Rat.inv Rat.sub in
/-- C4 witness: with spent `[6, null]` and messages `[3, 5]`, index 0 is the
quotient 2 and index 1 is the coerced 0. -/
theorem cpm_series_amended_witness :
    (computeCostPerMessageSeries [some 6, none] [some 3, some 5]).get? 0 = some (some 2) ∧
    (computeCostPerMessageSeries [some 6, none] [some 3, some 5]).get? 1 = some (some 0) := by
  constructor
  · rw [(cpm_series_amended [some 6, none] [some 3, some 5]).2.1 0 6 3
      (by decide) (by decide) (by norm_num)]
    decide
  · exact (cpm_series_amended [some 6, none] [some 3, some 5]).2.2.1 1 5
      (by decide) (by decide) (by norm_num)

end ExcelDash
